import Mathlib

/-
Shallow embedding of the resilient command runner defined in
`sam002-query-hdfs-in-sql-server.ipynb` (the Python function `run` together
with the hint tables `kubectl_hints` and `azdata_hints`).

External collaborators of the runner (the `shlex.split` tokenizer,
`shutil.which` path resolution, the behaviour of each spawned process,
`platform.system()`, `sys.executable`) are supplied by a `World` record.
Process behaviour is indexed by the attempt counter `retry_count`, so the
recursive retry of the same command can observe a different process
behaviour on each attempt, as in reality.

The original function `run` also references `python_hints()`, which is not
defined anywhere in this source file; its value is modelled from the spec
(see the `World` fields below).  Display side effects (`print`,
`display(Markdown(...))`) become a list of structured `Event`s; the raised
Python exceptions (`FileNotFoundError`, `SystemExit`, `IndexError`) become
an `Except` outcome.  The mutable hint-list arguments (which Python extends
in place via `+=`, aliasing the caller's list object and, at the top level,
the function's default argument objects) are threaded explicitly: the
`...Final` fields of `RunResult` are the values held by those list objects
when the call returns, and `runTop` models a call that uses the default
arguments, storing the mutated objects back into the globals.
-/

set_option autoImplicit false

namespace Sam002

/-- One entry of the `error_hints` table: a triple
`[pattern, reference, label]` as in the source lists. -/
structure ErrorHint where
  pattern : String
  ref : String
  label : String
  deriving DecidableEq, Repr

/-- Observable behaviour of one spawned process: the stdout lines and
stderr lines produced by `p.stdout.readline` / `p.stderr.readline`
iteration, and `p.returncode` after `p.wait()`. -/
structure ProcBehavior where
  stdout : List String
  stderr : List String
  returncode : Int
  deriving DecidableEq, Repr

/-- The runner's environment: the external collaborators consumed by
`run`.  `tokenize` stands for `shlex.split`, `which` for `shutil.which`,
`behavior n` for the process spawned on attempt number `n`, `isDarwin` for
`platform.system() == "Darwin"`, `sysExecutable` for `sys.executable`.

The three `python...` fields are Modelled from the spec: the source calls
`python_hints()` for commands starting with `"python "`, but that function
is not defined in this source file (it lives elsewhere in the repository);
per the spec it yields retry signatures, remediation hints and an
install-guidance hint for the python tool family. -/
structure World where
  tokenize : String → List String
  which : String → Option String
  behavior : Nat → ProcBehavior
  isDarwin : Bool
  sysExecutable : String
  pythonRetryHints : List String
  pythonErrorHints : List ErrorHint
  pythonInstallHint : String

/-- Structured record of one display side effect of `run` (a `print` or a
`display(Markdown(...))`).  Timestamps and platform banners are elided from
the `startBanner`/`successBanner` events because the source uses them only
descriptively. -/
inductive Event where
  | suggestInstall (hint : String)
  | startBanner (cmd : String)
  | spawned (attempt : Nat)
  | stdoutLine (line : String)
  | displayKV (key value : String) (linked : Bool)
  | errLine (line : String)
  | suggestHint (ref label : String)
  | retryNotice (count : Nat) (hint : String)
  | successBanner
  deriving DecidableEq, Repr

/-- The exceptions `run` can raise: `IndexError` from `cmd_actual[0]` on an
empty token list, `FileNotFoundError` when `shutil.which` fails, and
`SystemExit` on a non-zero exit code. -/
inductive RunError where
  | indexError
  | fileNotFound (name : String)
  | systemExit (cmd : String) (code : Int)
  deriving DecidableEq, Repr

deriving instance DecidableEq for Except

/-- Result of a call to `run`: the returned value or raised exception, the
display events in order, the final values of the two (mutated-in-place)
hint list objects and of the `LC_ALL` environment variable, and the list of
`retry_count` values of every invocation frame entered (the head is the
current frame, the rest come from the recursive retry chain). -/
structure RunResult where
  outcome : Except RunError (Option String)
  events : List Event
  errorHintsFinal : List ErrorHint
  retryHintsFinal : List String
  lcAllFinal : Option String
  attempts : List Nat
  deriving DecidableEq, Repr

/-- `containsSub pat l` is Python's `l.find(pat) != -1`: does `pat` occur
as a contiguous substring of `l`? -/
def containsSub (pat : List Char) : List Char → Bool
  | [] => pat.isPrefixOf []
  | c :: rest => pat.isPrefixOf (c :: rest) || containsSub pat rest

/-- Python's `s.find(pat) != -1` on strings. -/
def pyFind (s pat : String) : Bool :=
  containsSub pat.toList s.toList

/-- Python's `s.startswith(pat)` on strings. -/
def pyStartswith (s pat : String) : Bool :=
  pat.toList.isPrefixOf s.toList

/-- The suggestion loop of the stderr pump:
`for error_hint in error_hints: if line.find(error_hint[0]) != -1:
display(Markdown(...))`. -/
def suggestLoop (line : String) : List ErrorHint → List Event
  | [] => []
  | e :: rest =>
    (if pyFind line e.pattern then [Event.suggestHint e.ref e.label] else [])
      ++ suggestLoop line rest

/-- The retry loop of the stderr pump up to its first match:
`for retry_hint in retry_hints: if line.find(retry_hint) != -1: ...` acts
on the first matching entry in table order. -/
def retryFirst (line : String) : List String → Option String
  | [] => none
  | h :: rest => if pyFind line h then some h else retryFirst line rest

/-- The stderr pump of `run`: skips empty lines, echoes every other line
with the `ERR:` prefix, displays every matching remediation hint, and on
the first retry-signature match with `retry_count < max_retries`
(`canRetry`) stops, reporting that a retry was triggered (second
component `true`).  `rc` is the `retry_count` printed in the retry
notice. -/
def processStderr (eh : List ErrorHint) (rh : List String) (canRetry : Bool)
    (rc : Nat) : List String → List Event × Bool
  | [] => ([], false)
  | l :: rest =>
    if l = "" then processStderr eh rh canRetry rc rest
    else
      let evs := Event.errLine l :: suggestLoop l eh
      match retryFirst l rh with
      | some hint =>
        if canRetry then (evs ++ [Event.retryNotice rc hint], true)
        else
          let t := processStderr eh rh canRetry rc rest
          (evs ++ t.1, t.2)
      | none =>
        let t := processStderr eh rh canRetry rc rest
        (evs ++ t.1, t.2)

/-- Splits `t` as `g1 ++ sep ++ a` where `sep` is the literal
`"` `:` `␣` `"` between the two capture groups of the notebook-summary
regex, `a` still contains a `"`, and `g1` is as long as possible (the
greedy semantics of the first `(.*)` in Python's
`re.match('  "(.*)"\: "(.*)"', line)`). -/
def findSepSplit : List Char → Option (List Char × List Char)
  | [] => none
  | c :: rest =>
    match findSepSplit rest with
    | some (b, a) => some (c :: b, a)
    | none =>
      if ['"', ':', ' ', '"'].isPrefixOf (c :: rest)
          && containsSub ['"'] ((c :: rest).drop 4)
      then some ([], (c :: rest).drop 4)
      else none

/-- The characters of `a` strictly before its last `"`, if any: the greedy
second capture group followed by the closing quote. -/
def lastQuoteSplit : List Char → Option (List Char)
  | [] => none
  | c :: rest =>
    match lastQuoteSplit rest with
    | some g => some (c :: g)
    | none => if c = '"' then some [] else none

/-- Python's `re.compile('  "(.*)"\: "(.*)"').match(line)`, returning the
two capture groups on success.  The match is anchored at the start of the
line, `.` does not match a newline, both groups are greedy, and trailing
characters after the match are ignored. -/
def notebookMatch (line : String) : Option (String × String) :=
  let s := line.toList.takeWhile (fun c => c ≠ '\n')
  if [' ', ' ', '"'].isPrefixOf s then
    match findSepSplit (s.drop 3) with
    | some (g1, a) =>
      match lastQuoteSplit a with
      | some g2 => some (⟨g1⟩, ⟨g2⟩)
      | none => none
    | none => none
  else none

/-- The stdout pump of `run`: accumulate each line into `output` when
`return_output` is set; otherwise display it — for commands starting with
`"azdata notebook run"` only lines matching the notebook-summary regex are
displayed, rewritten with the value hyperlinked unless the key contains
`"HTML"`; for every other command the line is printed as is. -/
def processStdout (cmd : String) (return_output : Bool) :
    List String → String × List Event
  | [] => ("", [])
  | l :: rest =>
    let t := processStdout cmd return_output rest
    if return_output then (l ++ t.1, t.2)
    else
      let evs :=
        if pyStartswith cmd "azdata notebook run" then
          match notebookMatch l with
          | some kv => [Event.displayKV kv.1 kv.2 (!pyFind kv.1 "HTML")]
          | none => []
        else [Event.stdoutLine l]
      (t.1, evs ++ t.2)

/-- The `retry_hints` list returned by `kubectl_hints()` in the source. -/
def kubectl_retry_hints : List String :=
  ["A connection attempt failed because the connected party did not properly respond after a period of time, or established connection failed because connected host has failed to respond"]

/-- The `error_hints` list returned by `kubectl_hints()` in the source. -/
def kubectl_error_hints : List ErrorHint :=
  [⟨"no such host", "../monitor-k8s/tsg010-get-kubernetes-contexts.ipynb", "TSG010 - Get configuration contexts"⟩,
   ⟨"no such host", "../repair/tsg011-restart-sparkhistory-server.ipynb", "TSG011 - Restart sparkhistory server"⟩,
   ⟨"No connection could be made because the target machine actively refused it", "../repair/tsg056-kubectl-no-connection-could-be-made.ipynb", "TSG056 - Kubectl fails with No connection could be made because the target machine actively refused it"⟩]

/-- The `install_hint` returned by `kubectl_hints()` in the source
(including its stray trailing apostrophe, written via `Char.ofNat 39`). -/
def kubectl_install_hint : String :=
  "[SOP036 - Install kubectl command line interface](../install/sop036-install-kubectl.ipynb)" ++ ⟨[Char.ofNat 39]⟩

/-- The `retry_hints` list returned by `azdata_hints()` in the source. -/
def azdata_retry_hints : List String :=
  ["Endpoint sql-server-master does not exist",
   "Endpoint livy does not exist",
   "Failed to get state for cluster",
   "Endpoint webhdfs does not exist",
   "Adaptive Server is unavailable or does not exist",
   "Error: Address already in use",
   "Timed out getting health status after 5000 milliseconds"]

/-- The `error_hints` list returned by `azdata_hints()` in the source
(apostrophes in two patterns are written via `Char.ofNat 39`). -/
def azdata_error_hints : List ErrorHint :=
  [⟨"azdata login", "../common/sop028-azdata-login.ipynb", "SOP028 - azdata login"⟩,
   ⟨"The token is expired", "../common/sop028-azdata-login.ipynb", "SOP028 - azdata login"⟩,
   ⟨"Reason: Unauthorized", "../common/sop028-azdata-login.ipynb", "SOP028 - azdata login"⟩,
   ⟨"Max retries exceeded with url: /api/v1/bdc/endpoints", "../common/sop028-azdata-login.ipynb", "SOP028 - azdata login"⟩,
   ⟨"Look at the controller logs for more details", "../diagnose/tsg027-observe-bdc-create.ipynb", "TSG027 - Observe cluster deployment"⟩,
   ⟨"provided port is already allocated", "../log-files/tsg062-tail-bdc-previous-container-logs.ipynb", "TSG062 - Get tail of all previous container logs for pods in BDC namespace"⟩,
   ⟨"Create cluster failed since the existing namespace", "../install/sop061-delete-bdc.ipynb", "SOP061 - Delete a big data cluster"⟩,
   ⟨"Failed to complete kube config setup", "../repair/tsg067-failed-to-complete-kube-config-setup.ipynb", "TSG067 - Failed to complete kube config setup"⟩,
   ⟨"Error processing command: \"ApiError", "../repair/tsg110-azdata-returns-apierror.ipynb", "TSG110 - Azdata returns ApiError"⟩,
   ⟨"Error processing command: \"ControllerError", "../log-analyzers/tsg036-get-controller-logs.ipynb", "TSG036 - Controller logs"⟩,
   ⟨"ERROR: 500", "../log-analyzers/tsg046-get-knox-logs.ipynb", "TSG046 - Knox gateway logs"⟩,
   ⟨"Data source name not found and no default driver specified", "../install/sop069-install-odbc-driver-for-sql-server.ipynb", "SOP069 - Install ODBC for SQL Server"⟩,
   ⟨"Can" ++ ⟨[Char.ofNat 39]⟩ ++ "t open lib " ++ ⟨[Char.ofNat 39]⟩ ++ "ODBC Driver 17 for SQL Server", "../install/sop069-install-odbc-driver-for-sql-server.ipynb", "SOP069 - Install ODBC for SQL Server"⟩]

/-- The `install_hint` returned by `azdata_hints()` in the source. -/
def azdata_install_hint : String :=
  "[SOP055 - Install azdata command line interface](../install/sop055-install-azdata.ipynb)" ++ ⟨[Char.ofNat 39]⟩

/-- Replace the head of a list, if any (`cmd_actual[0] = ...`). -/
def replaceHead (f : String → String) : List String → List String
  | [] => []
  | x :: r => f x :: r

/-- `cmd_actual` after tokenization and the python-interpreter rewrite:
`shlex.split(cmd)`, then, for commands starting with `"python "`,
`cmd_actual[0] = cmd_actual[0].replace("python", sys.executable)`. -/
def cmdActual (w : World) (cmd : String) : List String :=
  let ca := w.tokenize cmd
  if pyStartswith cmd "python " then
    replaceHead (fun t => t.replace "python" w.sysExecutable) ca
  else ca

/-- The value of `LC_ALL` after the pre-spawn environment fix-up: for a
`"python "` command on Darwin with `LC_ALL` unset, `os.environ["LC_ALL"] =
"en_US.UTF-8"`. -/
def lcAllAfter (w : World) (cmd : String) (lc : Option String) : Option String :=
  if pyStartswith cmd "python " && w.isDarwin && lc.isNone then some "en_US.UTF-8"
  else lc

/-- The value of the `retry_hints` list object after the three
`retry_hints += ...` extensions guarded by the `python `/`kubectl `/
`azdata ` command prefixes. -/
def effectiveRetryHints (w : World) (cmd : String) (retry_hints : List String) :
    List String :=
  let retry_hints :=
    if pyStartswith cmd "python " then retry_hints ++ w.pythonRetryHints
    else retry_hints
  let retry_hints :=
    if pyStartswith cmd "kubectl " then retry_hints ++ kubectl_retry_hints
    else retry_hints
  if pyStartswith cmd "azdata " then retry_hints ++ azdata_retry_hints
  else retry_hints

/-- The value of the `error_hints` list object after the three
`error_hints += ...` extensions guarded by the command prefixes. -/
def effectiveErrorHints (w : World) (cmd : String) (error_hints : List ErrorHint) :
    List ErrorHint :=
  let error_hints :=
    if pyStartswith cmd "python " then error_hints ++ w.pythonErrorHints
    else error_hints
  let error_hints :=
    if pyStartswith cmd "kubectl " then error_hints ++ kubectl_error_hints
    else error_hints
  if pyStartswith cmd "azdata " then error_hints ++ azdata_error_hints
  else error_hints

/-- The final value of the `install_hint` variable: `None`, overwritten by
the family hint of each matching command prefix in turn. -/
def installHintFor (w : World) (cmd : String) : Option String :=
  let ih : Option String := none
  let ih := if pyStartswith cmd "python " then some w.pythonInstallHint else ih
  let ih := if pyStartswith cmd "kubectl " then some kubectl_install_hint else ih
  if pyStartswith cmd "azdata " then some azdata_install_hint else ih

/-- Outcome of one attempt of `run`, before the retry recursion: either a
finished `RunResult`, or a retry request carrying the display events of
the abandoned attempt and the (extended) hint lists and environment passed
on to the recursive call. -/
inductive Step where
  | done (r : RunResult)
  | retry (evs : List Event) (eh : List ErrorHint) (rh : List String)
      (lc : Option String)

/-- One attempt of `run`, from entry up to the point where it either
finishes (returns or raises) or decides to retry: hint-table extension and
environment fix-up, executable resolution (with the install-guidance
display on failure), spawning, the stdout pump, the stderr pump with
remediation hints and the retry decision, and the exit-code check. -/
def attempt (w : World) (cmd : String) (return_output no_output : Bool)
    (error_hints : List ErrorHint) (retry_hints : List String)
    (retry_count : Nat) (lc_all : Option String) : Step :=
  let max_retries : Nat := 5
  let lc_all := lcAllAfter w cmd lc_all
  let retry_hints := effectiveRetryHints w cmd retry_hints
  let error_hints := effectiveErrorHints w cmd error_hints
  let install_hint := installHintFor w cmd
  match cmdActual w cmd with
  | [] =>
    Step.done ⟨Except.error RunError.indexError, [], error_hints, retry_hints,
      lc_all, [retry_count]⟩
  | tok0 :: _ =>
    match w.which tok0 with
    | none =>
      Step.done ⟨Except.error (RunError.fileNotFound tok0),
        (match install_hint with
         | some h => [Event.suggestInstall h]
         | none => []),
        error_hints, retry_hints, lc_all, [retry_count]⟩
    | some _binary =>
      let b := w.behavior retry_count
      let startEvs := [Event.startBanner cmd, Event.spawned retry_count]
      if no_output then
        if b.returncode ≠ 0 then
          Step.done ⟨Except.error (RunError.systemExit cmd b.returncode),
            startEvs, error_hints, retry_hints, lc_all, [retry_count]⟩
        else
          Step.done ⟨Except.ok (if return_output then some "" else none),
            startEvs ++ [Event.successBanner], error_hints, retry_hints,
            lc_all, [retry_count]⟩
      else
        let so := processStdout cmd return_output b.stdout
        let se := processStderr error_hints retry_hints
          (decide (retry_count < max_retries)) retry_count b.stderr
        if se.2 then
          Step.retry (startEvs ++ so.2 ++ se.1) error_hints retry_hints lc_all
        else if b.returncode ≠ 0 then
          Step.done ⟨Except.error (RunError.systemExit cmd b.returncode),
            startEvs ++ so.2 ++ se.1, error_hints, retry_hints, lc_all,
            [retry_count]⟩
        else
          Step.done ⟨Except.ok (if return_output then some so.1 else none),
            startEvs ++ so.2 ++ se.1 ++ [Event.successBanner], error_hints,
            retry_hints, lc_all, [retry_count]⟩

/-- The retry recursion of `run`, structured on a fuel argument that is
always sufficient (`run` supplies `5 - retry_count + 1`, and a retry is
only requested when `retry_count < 5`, so the fuel-exhausted base case is
unreachable from `run`).  On a retry the recursive call receives the same
command, `return_output`, the extended hint list objects and environment,
`retry_count + 1`, and the default `no_output = False` (the source omits
`no_output` from the recursive call; retry is in any case only reachable
when `no_output` is false). -/
def runFuel (w : World) : Nat → String → Bool → Bool → List ErrorHint →
    List String → Nat → Option String → RunResult
  | 0, _cmd, _ro, _no, eh, rh, _rc, lc =>
    ⟨Except.error RunError.indexError, [], eh, rh, lc, []⟩
  | fuel + 1, cmd, ro, no, eh, rh, rc, lc =>
    match attempt w cmd ro no eh rh rc lc with
    | Step.done r => r
    | Step.retry evs eh2 rh2 lc2 =>
      let r := runFuel w fuel cmd ro false eh2 rh2 (rc + 1) lc2
      ⟨r.outcome, evs ++ r.events, r.errorHintsFinal, r.retryHintsFinal,
        r.lcAllFinal, rc :: r.attempts⟩

/-- The `run` function of the source: one attempt plus at most
`5 - retry_count` further attempts via the bounded retry recursion. -/
def run (w : World) (cmd : String) (return_output no_output : Bool)
    (error_hints : List ErrorHint) (retry_hints : List String)
    (retry_count : Nat) (lc_all : Option String) : RunResult :=
  runFuel w (5 - retry_count + 1) cmd return_output no_output error_hints
    retry_hints retry_count lc_all

/-- The Python globals touched by a top-level call of `run` that uses the
default arguments: the default list objects bound to `error_hints` and
`retry_hints` (mutated in place by `+=`), and the `LC_ALL` environment
variable. -/
structure PyGlobals where
  default_error_hints : List ErrorHint
  default_retry_hints : List String
  lc_all : Option String
  deriving DecidableEq, Repr

/-- A top-level call `run(cmd, return_output, no_output)` with
`error_hints`, `retry_hints` and `retry_count` left at their defaults: the
default list objects are passed (by reference) and hold their mutated
values after the call returns. -/
def runTop (w : World) (g : PyGlobals) (cmd : String)
    (return_output no_output : Bool) : RunResult × PyGlobals :=
  let r := run w cmd return_output no_output g.default_error_hints
    g.default_retry_hints 0 g.lc_all
  (r, ⟨r.errorHintsFinal, r.retryHintsFinal, r.lcAllFinal⟩)

/-- Does some non-empty stderr line contain one of the retry signatures?
This is the condition under which the stderr pump of an attempt with
`retry_count < max_retries` triggers a retry. -/
def stderrTriggers (rh : List String) (ls : List String) : Bool :=
  ls.any fun l => !(l == "") && (retryFirst l rh).isSome

/-- The world with every stderr line that equals the empty string removed
from every process behaviour; all other collaborators unchanged. -/
def filterStderrWorld (w : World) : World :=
  { w with
    behavior := fun n =>
      { stdout := (w.behavior n).stdout,
        stderr := (w.behavior n).stderr.filter (fun l => !(l == "")),
        returncode := (w.behavior n).returncode } }

/-- Concrete environment: a generic tool whose first attempt emits a
transient-looking stderr line and exits 1, and whose second attempt
succeeds silently. -/
def worldC1 : World :=
  ⟨fun _ => ["t", "x"], fun _ => some "/bin/t",
   fun n => if n = 0 then ⟨[], ["boom transient\n"], 1⟩ else ⟨[], [], 0⟩,
   false, "/py", [], [], ""⟩

/-- Concrete environment: an `azdata` call whose every attempt emits a
configured retry signature on stderr and exits 1. -/
def worldC2 : World :=
  ⟨fun _ => ["azdata", "bdc", "status"], fun _ => some "/x/azdata",
   fun _ => ⟨[], ["Endpoint livy does not exist\n"], 1⟩,
   false, "/py", [], [], ""⟩

/-- Concrete environment: no executable resolves on the search path. -/
def worldC3 : World :=
  ⟨fun _ => ["kubectl", "get", "pods"], fun _ => none, fun _ => ⟨[], [], 0⟩,
   false, "/py", [], [], ""⟩

/-- Concrete environment: an `azdata notebook run` command whose process
prints one plain stdout line that does not match the summary format. -/
def worldC6 : World :=
  ⟨fun _ => ["azdata", "notebook", "run", "nb"], fun _ => some "/x/azdata",
   fun _ => ⟨["hello"], [], 0⟩, false, "/py", [], [], ""⟩

/-- Concrete environment: an `azdata` command whose process emits a stderr
line matching the `"azdata login"` remediation-hint pattern and exits 0. -/
def worldC9 : World :=
  ⟨fun _ => ["azdata", "x"], fun _ => some "/x/azdata",
   fun _ => ⟨[], ["azdata login\n"], 0⟩, false, "/py", [], [], ""⟩

/-- Concrete environment: a tool that exits 0 while still emitting a
transient-looking stderr line on its first attempt. -/
def worldC10 : World :=
  ⟨fun _ => ["t", "x"], fun _ => some "/bin/t",
   fun n => if n = 0 then ⟨[], ["transient!\n"], 0⟩ else ⟨[], [], 0⟩,
   false, "/py", [], [], ""⟩

end Sam002

namespace Sam002

theorem containsSub_infix_iff (pat l : List Char) :
    containsSub pat l = true ↔ pat <:+: l := by
  induction l with
  | nil =>
    simp [containsSub, List.isPrefixOf_iff_prefix, List.infix_nil, List.prefix_nil]
  | cons c rest ih =>
    simp [containsSub, List.infix_cons_iff, List.isPrefixOf_iff_prefix, ih]

theorem pyFind_eq_decide (s pat : String) :
    pyFind s pat = decide (pat.toList <:+: s.toList) := by
  by_cases hP : pat.toList <:+: s.toList
  · have h1 : pyFind s pat = true :=
      (containsSub_infix_iff pat.toList s.toList).mpr hP
    rw [h1, eq_comm]
    exact decide_eq_true hP
  · have h1 : pyFind s pat ≠ true :=
      fun hc => hP ((containsSub_infix_iff pat.toList s.toList).mp hc)
    simp only [Bool.not_eq_true] at h1
    rw [h1, eq_comm]
    exact decide_eq_false hP

theorem suggestLoop_eq_filter (line : String) (table : List ErrorHint) :
    suggestLoop line table =
      (table.filter fun e => pyFind line e.pattern).map
        fun e => Event.suggestHint e.ref e.label := by
  induction table with
  | nil => rfl
  | cons e rest ih =>
    rcases hb : pyFind line e.pattern with _ | _ <;>
      simp [suggestLoop, List.filter_cons, hb, ih]

theorem retryFirst_eq_find (line : String) (rh : List String) :
    retryFirst line rh = rh.find? fun h => pyFind line h := by
  induction rh with
  | nil => rfl
  | cons a rest ih =>
    rcases hb : pyFind line a with _ | _ <;>
      simp [retryFirst, List.find?, hb, ih]

end Sam002

namespace Sam002

theorem stderrTriggers_nil (rh : List String) : stderrTriggers rh [] = false := rfl

theorem stderrTriggers_cons (rh : List String) (l : String) (rest : List String) :
    stderrTriggers rh (l :: rest) =
      ((!(l == "") && (retryFirst l rh).isSome) || stderrTriggers rh rest) := by
  simp [stderrTriggers]

theorem processStderr_snd (eh : List ErrorHint) (rh : List String) (c : Bool)
    (rc : Nat) (ls : List String) :
    (processStderr eh rh c rc ls).2 = (c && stderrTriggers rh ls) := by
  induction ls with
  | nil => simp [processStderr, stderrTriggers]
  | cons l rest ih =>
    by_cases hl : l = ""
    · subst hl
      show (processStderr eh rh c rc rest).2 = _
      rw [ih, stderrTriggers_cons]
      simp
    · simp only [processStderr, if_neg hl]
      cases hfind : retryFirst l rh with
      | some hint =>
        cases c with
        | false =>
          simp only [Bool.false_and, if_neg (by simp : ¬ (false = true))]
          simp [ih]
        | true =>
          simp only [if_pos rfl]
          simp [stderrTriggers_cons, hl, hfind]
      | none =>
        simp only [hfind]
        rw [ih, stderrTriggers_cons, hfind]
        simp [hl]

theorem processStderr_events_of_cant_retry (eh : List ErrorHint)
    (rh : List String) (rc : Nat) (ls : List String) (l : String)
    (hmem : l ∈ ls) (hl : l ≠ "") :
    Event.errLine l ∈ (processStderr eh rh false rc ls).1 := by
  induction ls with
  | nil => simp at hmem
  | cons a rest ih =>
    rcases List.mem_cons.mp hmem with rfl | hmem2
    · simp only [processStderr, if_neg hl]
      cases hfind : retryFirst l rh <;> simp [hfind]
    · by_cases ha : a = ""
      · subst ha
        simpa [processStderr] using ih hmem2
      · simp only [processStderr, if_neg ha]
        cases hfind : retryFirst a rh <;> simp [hfind, ih hmem2]

end Sam002

namespace Sam002

theorem attempt_done_attempts (w : World) (cmd : String) (ro no : Bool)
    (eh : List ErrorHint) (rh : List String) (rc : Nat) (lc : Option String)
    (r : RunResult) (h : attempt w cmd ro no eh rh rc lc = Step.done r) :
    r.attempts = [rc] := by
  simp only [attempt] at h
  repeat' split at h
  all_goals first
    | (injection h with h2; subst h2; rfl)
    | exact Step.noConfusion h

theorem attempt_retry_inv (w : World) (cmd : String) (ro no : Bool)
    (eh : List ErrorHint) (rh : List String) (rc : Nat) (lc : Option String)
    (evs : List Event) (eh2 : List ErrorHint) (rh2 : List String)
    (lc2 : Option String)
    (h : attempt w cmd ro no eh rh rc lc = Step.retry evs eh2 rh2 lc2) :
    rc < 5 ∧ eh2 = effectiveErrorHints w cmd eh
      ∧ rh2 = effectiveRetryHints w cmd rh ∧ lc2 = lcAllAfter w cmd lc
      ∧ no = false := by
  cases htok : cmdActual w cmd with
  | nil =>
    simp only [attempt, htok] at h
    exact Step.noConfusion h
  | cons tok0 ts =>
    cases hw : w.which tok0 with
    | none =>
      simp only [attempt, htok, hw] at h
      exact Step.noConfusion h
    | some pth =>
      cases no with
      | true =>
        simp only [attempt, htok, hw] at h
        rw [if_pos (by trivial)] at h
        rcases ite_eq_iff.mp h with ⟨_, hh⟩ | ⟨_, hh⟩ <;> exact Step.noConfusion hh
      | false =>
        simp only [attempt, htok, hw,
          if_neg (by simp : ¬ ((false : Bool) = true))] at h
        by_cases hse : (processStderr (effectiveErrorHints w cmd eh)
            (effectiveRetryHints w cmd rh) (decide (rc < 5)) rc
            (w.behavior rc).stderr).2 = true
        · rw [if_pos hse] at h
          injection h with h1 h2 h3 h4
          rw [processStderr_snd, Bool.and_eq_true] at hse
          exact ⟨of_decide_eq_true hse.1, h2.symm, h3.symm, h4.symm, rfl⟩
        · rw [if_neg hse] at h
          rcases ite_eq_iff.mp h with ⟨_, hh⟩ | ⟨_, hh⟩ <;> exact Step.noConfusion hh

theorem run_done (w : World) (cmd : String) (ro no : Bool)
    (eh : List ErrorHint) (rh : List String) (rc : Nat) (lc : Option String)
    (r : RunResult) (h : attempt w cmd ro no eh rh rc lc = Step.done r) :
    run w cmd ro no eh rh rc lc = r := by
  show runFuel w (5 - rc + 1) cmd ro no eh rh rc lc = r
  simp only [runFuel, h]

theorem run_retry_eq (w : World) (cmd : String) (ro no : Bool)
    (eh : List ErrorHint) (rh : List String) (rc : Nat) (lc : Option String)
    (evs : List Event) (eh2 : List ErrorHint) (rh2 : List String)
    (lc2 : Option String)
    (h : attempt w cmd ro no eh rh rc lc = Step.retry evs eh2 rh2 lc2) :
    run w cmd ro no eh rh rc lc =
      { outcome := (run w cmd ro false eh2 rh2 (rc + 1) lc2).outcome,
        events := evs ++ (run w cmd ro false eh2 rh2 (rc + 1) lc2).events,
        errorHintsFinal := (run w cmd ro false eh2 rh2 (rc + 1) lc2).errorHintsFinal,
        retryHintsFinal := (run w cmd ro false eh2 rh2 (rc + 1) lc2).retryHintsFinal,
        lcAllFinal := (run w cmd ro false eh2 rh2 (rc + 1) lc2).lcAllFinal,
        attempts := rc :: (run w cmd ro false eh2 rh2 (rc + 1) lc2).attempts } := by
  have hrc : rc < 5 := (attempt_retry_inv w cmd ro no eh rh rc lc evs eh2 rh2 lc2 h).1
  show runFuel w (5 - rc + 1) cmd ro no eh rh rc lc = _
  simp only [runFuel, h]
  have harith : 5 - rc = 5 - (rc + 1) + 1 := by omega
  rw [harith]
  rfl

end Sam002

namespace Sam002

theorem attempt_not_found (w : World) (cmd : String) (ro no : Bool)
    (eh : List ErrorHint) (rh : List String) (rc : Nat) (lc : Option String)
    (tok0 : String) (ts : List String)
    (htok : cmdActual w cmd = tok0 :: ts) (hw : w.which tok0 = none) :
    attempt w cmd ro no eh rh rc lc =
      Step.done ⟨Except.error (RunError.fileNotFound tok0),
        (match installHintFor w cmd with
         | some h => [Event.suggestInstall h]
         | none => []),
        effectiveErrorHints w cmd eh, effectiveRetryHints w cmd rh,
        lcAllAfter w cmd lc, [rc]⟩ := by
  simp only [attempt, htok, hw]

theorem attempt_trigger (w : World) (cmd : String) (ro : Bool)
    (eh : List ErrorHint) (rh : List String) (rc : Nat) (lc : Option String)
    (tok0 : String) (ts : List String) (pth : String)
    (htok : cmdActual w cmd = tok0 :: ts) (hw : w.which tok0 = some pth)
    (hrc : rc < 5)
    (htrig : stderrTriggers (effectiveRetryHints w cmd rh)
      (w.behavior rc).stderr = true) :
    attempt w cmd ro false eh rh rc lc =
      Step.retry ([Event.startBanner cmd, Event.spawned rc]
          ++ (processStdout cmd ro (w.behavior rc).stdout).2
          ++ (processStderr (effectiveErrorHints w cmd eh)
              (effectiveRetryHints w cmd rh) true rc (w.behavior rc).stderr).1)
        (effectiveErrorHints w cmd eh) (effectiveRetryHints w cmd rh)
        (lcAllAfter w cmd lc) := by
  have hd : decide (rc < 5) = true := decide_eq_true hrc
  have hse : (processStderr (effectiveErrorHints w cmd eh)
      (effectiveRetryHints w cmd rh) true rc (w.behavior rc).stderr).2 = true := by
    rw [processStderr_snd, htrig]
    rfl
  simp only [attempt, htok, hw, if_neg (by simp : ¬ ((false : Bool) = true)), hd,
    hse]
  rw [if_pos trivial]

theorem attempt_no_trigger (w : World) (cmd : String) (ro : Bool)
    (eh : List ErrorHint) (rh : List String) (rc : Nat) (lc : Option String)
    (tok0 : String) (ts : List String) (pth : String)
    (htok : cmdActual w cmd = tok0 :: ts) (hw : w.which tok0 = some pth)
    (hse : (decide (rc < 5) && stderrTriggers (effectiveRetryHints w cmd rh)
        (w.behavior rc).stderr) = false) :
    attempt w cmd ro false eh rh rc lc =
      (if (w.behavior rc).returncode ≠ 0 then
        Step.done ⟨Except.error (RunError.systemExit cmd (w.behavior rc).returncode),
          [Event.startBanner cmd, Event.spawned rc]
            ++ (processStdout cmd ro (w.behavior rc).stdout).2
            ++ (processStderr (effectiveErrorHints w cmd eh)
                (effectiveRetryHints w cmd rh) (decide (rc < 5)) rc
                (w.behavior rc).stderr).1,
          effectiveErrorHints w cmd eh, effectiveRetryHints w cmd rh,
          lcAllAfter w cmd lc, [rc]⟩
      else
        Step.done ⟨Except.ok
            (if ro then some (processStdout cmd ro (w.behavior rc).stdout).1
             else none),
          [Event.startBanner cmd, Event.spawned rc]
            ++ (processStdout cmd ro (w.behavior rc).stdout).2
            ++ (processStderr (effectiveErrorHints w cmd eh)
                (effectiveRetryHints w cmd rh) (decide (rc < 5)) rc
                (w.behavior rc).stderr).1 ++ [Event.successBanner],
          effectiveErrorHints w cmd eh, effectiveRetryHints w cmd rh,
          lcAllAfter w cmd lc, [rc]⟩) := by
  have hse2 : (processStderr (effectiveErrorHints w cmd eh)
      (effectiveRetryHints w cmd rh) (decide (rc < 5)) rc
      (w.behavior rc).stderr).2 = false := by
    rw [processStderr_snd]
    exact hse
  simp only [attempt, htok, hw, if_neg (by simp : ¬ ((false : Bool) = true)), hse2,
    if_neg (by simp : ¬ ((false : Bool) = true))]

theorem attempt_done_finals (w : World) (cmd : String) (ro no : Bool)
    (eh : List ErrorHint) (rh : List String) (rc : Nat) (lc : Option String)
    (r : RunResult) (h : attempt w cmd ro no eh rh rc lc = Step.done r) :
    r.errorHintsFinal = effectiveErrorHints w cmd eh
      ∧ r.retryHintsFinal = effectiveRetryHints w cmd rh
      ∧ r.lcAllFinal = lcAllAfter w cmd lc := by
  simp only [attempt] at h
  repeat' split at h
  all_goals first
    | (injection h with h2; subst h2; exact ⟨rfl, rfl, rfl⟩)
    | exact Step.noConfusion h

end Sam002

namespace Sam002

theorem runFuel_attempts_length (w : World) (fuel : Nat) :
    ∀ (cmd : String) (ro no : Bool) (eh : List ErrorHint) (rh : List String)
      (rc : Nat) (lc : Option String),
      (runFuel w fuel cmd ro no eh rh rc lc).attempts.length ≤ fuel := by
  induction fuel with
  | zero =>
    intro cmd ro no eh rh rc lc
    simp [runFuel]
  | succ fuel ih =>
    intro cmd ro no eh rh rc lc
    cases hA : attempt w cmd ro no eh rh rc lc with
    | done r =>
      simp only [runFuel, hA]
      rw [attempt_done_attempts w cmd ro no eh rh rc lc r hA]
      simp
    | retry evs eh2 rh2 lc2 =>
      simp only [runFuel, hA, List.length_cons]
      have := ih cmd ro false eh2 rh2 (rc + 1) lc2
      omega

theorem runFuel_attempts_le (w : World) (fuel : Nat) :
    ∀ (cmd : String) (ro no : Bool) (eh : List ErrorHint) (rh : List String)
      (rc : Nat) (lc : Option String), rc ≤ 5 →
      ∀ a ∈ (runFuel w fuel cmd ro no eh rh rc lc).attempts, a ≤ 5 := by
  induction fuel with
  | zero =>
    intro cmd ro no eh rh rc lc hrc a ha
    simp [runFuel] at ha
  | succ fuel ih =>
    intro cmd ro no eh rh rc lc hrc a ha
    cases hA : attempt w cmd ro no eh rh rc lc with
    | done r =>
      simp only [runFuel, hA] at ha
      rw [attempt_done_attempts w cmd ro no eh rh rc lc r hA] at ha
      simp at ha
      omega
    | retry evs eh2 rh2 lc2 =>
      simp only [runFuel, hA, List.mem_cons] at ha
      rcases ha with rfl | ha
      · exact hrc
      · have hlt := (attempt_retry_inv w cmd ro no eh rh rc lc evs eh2 rh2 lc2 hA).1
        exact ih cmd ro false eh2 rh2 (rc + 1) lc2 (by omega) a ha

/-- Claim C7: `run` is a total function of its request and the process
behaviours (the retry recursion is bounded, decreasing on `5 - retryCount`),
and the whole call chain makes at most `1 + (5 - retryCount)` attempts, so
at most `5 - retryCount` further attempts beyond the current one. -/
theorem run_attempt_count_bounded (w : World) (cmd : String) (ro no : Bool)
    (eh : List ErrorHint) (rh : List String) (rc : Nat) (lc : Option String) :
    (run w cmd ro no eh rh rc lc).attempts.length ≤ 1 + (5 - rc) := by
  have h := runFuel_attempts_length w (5 - rc + 1) cmd ro no eh rh rc lc
  rw [run]
  omega

/-- Claim C2: starting from any `retryCount ≤ maxRetries`, every invocation
frame of the retry chain has `retryCount ≤ maxRetries = 5`; and when
`retryCount = maxRetries`, a matching retry signature causes no retry: the
chain consists of the single current attempt, every non-empty stderr line
is still echoed, and a non-zero exit is reported as the `SystemExit`
failure. -/
theorem retry_count_invariant (w : World) (cmd : String) (ro no : Bool)
    (eh : List ErrorHint) (rh : List String) (rc : Nat) (lc : Option String)
    (hrc : rc ≤ 5) :
    (∀ a ∈ (run w cmd ro no eh rh rc lc).attempts, a ≤ 5)
      ∧ (∀ (tok0 : String) (ts : List String) (pth : String),
          rc = 5 → no = false →
          cmdActual w cmd = tok0 :: ts → w.which tok0 = some pth →
          (run w cmd ro no eh rh rc lc).attempts = [5]
            ∧ (∀ l ∈ (w.behavior 5).stderr, l ≠ "" →
                Event.errLine l ∈ (run w cmd ro no eh rh rc lc).events)
            ∧ ((w.behavior 5).returncode ≠ 0 →
                (run w cmd ro no eh rh rc lc).outcome
                  = Except.error (RunError.systemExit cmd (w.behavior 5).returncode))) := by
  constructor
  · exact runFuel_attempts_le w (5 - rc + 1) cmd ro no eh rh rc lc hrc
  · intro tok0 ts pth hrc5 hno htok hw
    subst hrc5
    subst hno
    have hse : (decide (5 < 5) && stderrTriggers (effectiveRetryHints w cmd rh)
        (w.behavior 5).stderr) = false := by simp
    have hA := attempt_no_trigger w cmd ro eh rh 5 lc tok0 ts pth htok hw hse
    by_cases hret : (w.behavior 5).returncode ≠ 0
    · rw [if_pos hret] at hA
      have hrun := run_done w cmd ro false eh rh 5 lc _ hA
      rw [hrun]
      refine ⟨rfl, ?_, fun _ => rfl⟩
      intro l hmem hl
      have := processStderr_events_of_cant_retry (effectiveErrorHints w cmd eh)
        (effectiveRetryHints w cmd rh) 5 (w.behavior 5).stderr l hmem hl
      simp only [List.mem_append]
      right
      exact this
    · rw [if_neg hret] at hA
      have hrun := run_done w cmd ro false eh rh 5 lc _ hA
      rw [hrun]
      refine ⟨rfl, ?_, fun hc => absurd hc hret⟩
      intro l hmem hl
      have := processStderr_events_of_cant_retry (effectiveErrorHints w cmd eh)
        (effectiveRetryHints w cmd rh) 5 (w.behavior 5).stderr l hmem hl
      simp only [List.mem_append]
      left
      right
      exact this

end Sam002

namespace Sam002

/-- Witness for Claim C2 at a concrete input: `retryCount = 5`, a matching
retry signature on stderr, exit code 1 — the invariant holds, a single
attempt is made, the signature line is still echoed and `SystemExit` is
raised. -/
theorem retry_count_invariant_witness :
    (∀ a ∈ (run worldC2 "azdata bdc status" false false [] [] 5 none).attempts,
        a ≤ 5)
      ∧ (run worldC2 "azdata bdc status" false false [] [] 5 none).attempts = [5]
      ∧ Event.errLine "Endpoint livy does not exist\n"
          ∈ (run worldC2 "azdata bdc status" false false [] [] 5 none).events
      ∧ (run worldC2 "azdata bdc status" false false [] [] 5 none).outcome
          = Except.error (RunError.systemExit "azdata bdc status" 1) := by
  have h := retry_count_invariant worldC2 "azdata bdc status" false false [] [] 5
    none (by omega)
  have h2 := h.2 "azdata" ["bdc", "status"] "/x/azdata" rfl rfl (by decide) rfl
  refine ⟨h.1, h2.1, ?_, h2.2.2 (by decide)⟩
  exact h2.2.1 "Endpoint livy does not exist\n" (by simp [worldC2]) (by decide)

/-- Claim C3: when the (resolved) first token of the command does not
resolve on the search path, `run` raises `FileNotFoundError` carrying that
token, no process is spawned, and the only display is the configured
install-guidance hint of the matching tool family, when there is one. -/
theorem run_not_found (w : World) (cmd : String) (ro no : Bool)
    (eh : List ErrorHint) (rh : List String) (rc : Nat) (lc : Option String)
    (tok0 : String) (ts : List String)
    (htok : cmdActual w cmd = tok0 :: ts) (hw : w.which tok0 = none) :
    (run w cmd ro no eh rh rc lc).outcome
        = Except.error (RunError.fileNotFound tok0)
      ∧ (run w cmd ro no eh rh rc lc).events
        = (match installHintFor w cmd with
           | some h => [Event.suggestInstall h]
           | none => [])
      ∧ (∀ n, Event.spawned n ∉ (run w cmd ro no eh rh rc lc).events) := by
  have h := run_done w cmd ro no eh rh rc lc _
    (attempt_not_found w cmd ro no eh rh rc lc tok0 ts htok hw)
  rw [h]
  refine ⟨rfl, rfl, ?_⟩
  intro n hmem
  cases hinst : installHintFor w cmd <;> rw [hinst] at hmem <;> simp at hmem

/-- Witness for Claim C3 at a concrete input: a `kubectl` command with no
resolvable executable fails with `FileNotFoundError`, displays exactly the
kubectl install hint, and spawns nothing. -/
theorem run_not_found_witness :
    (run worldC3 "kubectl get pods" false false [] [] 0 none).outcome
        = Except.error (RunError.fileNotFound "kubectl")
      ∧ (run worldC3 "kubectl get pods" false false [] [] 0 none).events
        = [Event.suggestInstall kubectl_install_hint]
      ∧ (∀ n, Event.spawned n
          ∉ (run worldC3 "kubectl get pods" false false [] [] 0 none).events) := by
  have h := run_not_found worldC3 "kubectl get pods" false false [] [] 0 none
    "kubectl" ["get", "pods"] (by decide) rfl
  refine ⟨h.1, ?_, h.2.2⟩
  rw [h.2.1]
  decide

/-- Claim C4: the failure classifier is the pure per-line substring test of
the source loops: the remediation pass displays, in table order, exactly
the entries whose pattern occurs as a (case-sensitive, exact) substring of
the line — one match per matching entry — while the retry pass acts on the
first matching entry of the signature table in table order. -/
theorem classifier_matches_in_table_order (line : String)
    (table : List ErrorHint) (rh : List String) :
    suggestLoop line table =
      (table.filter fun e => decide (e.pattern.toList <:+: line.toList)).map
        (fun e => Event.suggestHint e.ref e.label)
      ∧ retryFirst line rh
        = rh.find? fun h => decide (h.toList <:+: line.toList) := by
  constructor
  · rw [suggestLoop_eq_filter]
    rw [show (fun e : ErrorHint => pyFind line e.pattern)
        = fun e : ErrorHint => decide (e.pattern.toList <:+: line.toList) from
      funext fun e => pyFind_eq_decide line e.pattern]
  · rw [retryFirst_eq_find]
    rw [show (fun h : String => pyFind line h)
        = fun h : String => decide (h.toList <:+: line.toList) from
      funext fun h => pyFind_eq_decide line h]

end Sam002

namespace Sam002

theorem processStderr_first_trigger (eh : List ErrorHint) (rh : List String)
    (rc : Nat) (pre post : List String) (l hint : String)
    (hpre : ∀ x ∈ pre, x = "" ∨ retryFirst x rh = none)
    (hl : l ≠ "") (hhint : retryFirst l rh = some hint) :
    processStderr eh rh true rc (pre ++ l :: post) =
      ((processStderr eh rh true rc pre).1
        ++ Event.errLine l :: suggestLoop l eh ++ [Event.retryNotice rc hint],
       true) := by
  induction pre with
  | nil =>
    simp only [List.nil_append, processStderr, if_neg hl, hhint, if_pos rfl]
    simp [processStderr]
  | cons x pre ih =>
    have hrest : ∀ y ∈ pre, y = "" ∨ retryFirst y rh = none :=
      fun y hy => hpre y (List.mem_cons_of_mem x hy)
    by_cases hxe : x = ""
    · subst hxe
      show processStderr eh rh true rc (pre ++ l :: post) = _
      rw [ih hrest]
      rfl
    · rcases hpre x (List.mem_cons_self x pre) with hx | hx
      · exact absurd hx hxe
      · simp only [List.cons_append, processStderr, if_neg hxe, hx, List.append_eq]
        rw [ih hrest]
        simp [List.append_assoc]

theorem run_attempts_cons (w : World) (cmd : String) (ro no : Bool)
    (eh : List ErrorHint) (rh : List String) (rc : Nat) (lc : Option String) :
    ∃ tl, (run w cmd ro no eh rh rc lc).attempts = rc :: tl := by
  show ∃ tl, (runFuel w (5 - rc + 1) cmd ro no eh rh rc lc).attempts = rc :: tl
  cases hA : attempt w cmd ro no eh rh rc lc with
  | done r =>
    refine ⟨[], ?_⟩
    simp only [runFuel, hA]
    exact attempt_done_attempts w cmd ro no eh rh rc lc r hA
  | retry evs eh2 rh2 lc2 =>
    exact ⟨(runFuel w (5 - rc) cmd ro false eh2 rh2 (rc + 1) lc2).attempts,
      by simp only [runFuel, hA]⟩

end Sam002

namespace Sam002

/-- Claim C1: with `retryCount < maxRetries`, when the first non-empty
stderr line of the current attempt containing a retry signature is `l`
(whose first matching table entry is `hint`), `run` logs the lines up to
and including the retry notice, abandons the remaining stderr lines of the
current attempt (`post` contributes nothing), re-invokes itself on the same
command with `retryCount + 1` and the otherwise-identical request (the same
aliased hint-list objects, as extended by the family branches), and the
value returned to the original caller is exactly the recursive call's
outcome. -/
theorem run_retry_on_first_match (w : World) (cmd : String) (ro : Bool)
    (eh : List ErrorHint) (rh : List String) (rc : Nat) (lc : Option String)
    (tok0 : String) (ts : List String) (pth : String)
    (pre post : List String) (l hint : String)
    (htok : cmdActual w cmd = tok0 :: ts) (hw : w.which tok0 = some pth)
    (hrc : rc < 5)
    (hstderr : (w.behavior rc).stderr = pre ++ l :: post)
    (hpre : ∀ x ∈ pre, x = "" ∨ retryFirst x (effectiveRetryHints w cmd rh) = none)
    (hl : l ≠ "")
    (hhint : retryFirst l (effectiveRetryHints w cmd rh) = some hint) :
    run w cmd ro false eh rh rc lc =
      { outcome := (run w cmd ro false (effectiveErrorHints w cmd eh)
          (effectiveRetryHints w cmd rh) (rc + 1) (lcAllAfter w cmd lc)).outcome,
        events := [Event.startBanner cmd, Event.spawned rc]
          ++ (processStdout cmd ro (w.behavior rc).stdout).2
          ++ ((processStderr (effectiveErrorHints w cmd eh)
              (effectiveRetryHints w cmd rh) true rc pre).1
            ++ Event.errLine l :: suggestLoop l (effectiveErrorHints w cmd eh)
            ++ [Event.retryNotice rc hint])
          ++ (run w cmd ro false (effectiveErrorHints w cmd eh)
              (effectiveRetryHints w cmd rh) (rc + 1) (lcAllAfter w cmd lc)).events,
        errorHintsFinal := (run w cmd ro false (effectiveErrorHints w cmd eh)
          (effectiveRetryHints w cmd rh) (rc + 1) (lcAllAfter w cmd lc)).errorHintsFinal,
        retryHintsFinal := (run w cmd ro false (effectiveErrorHints w cmd eh)
          (effectiveRetryHints w cmd rh) (rc + 1) (lcAllAfter w cmd lc)).retryHintsFinal,
        lcAllFinal := (run w cmd ro false (effectiveErrorHints w cmd eh)
          (effectiveRetryHints w cmd rh) (rc + 1) (lcAllAfter w cmd lc)).lcAllFinal,
        attempts := rc :: (run w cmd ro false (effectiveErrorHints w cmd eh)
          (effectiveRetryHints w cmd rh) (rc + 1) (lcAllAfter w cmd lc)).attempts } := by
  have hdec := processStderr_first_trigger (effectiveErrorHints w cmd eh)
    (effectiveRetryHints w cmd rh) rc pre post l hint hpre hl hhint
  have htrig : stderrTriggers (effectiveRetryHints w cmd rh)
      (w.behavior rc).stderr = true := by
    have h2 := congrArg Prod.snd hdec
    rw [processStderr_snd] at h2
    rw [hstderr]
    simpa using h2
  have hA := attempt_trigger w cmd ro eh rh rc lc tok0 ts pth htok hw hrc htrig
  have hrun := run_retry_eq w cmd ro false eh rh rc lc _ _ _ _ hA
  rw [hrun]
  have hdec1 := congrArg Prod.fst hdec
  simp only [hstderr, hdec1]

/-- Witness for Claim C1 at a concrete input: attempt 0 emits one stderr
line containing the signature `"transient"` and exits 1; attempt 1
succeeds; the caller sees the second attempt's success. -/
theorem run_retry_on_first_match_witness :
    (run worldC1 "t x" false false [] ["transient"] 0 none).outcome
        = (run worldC1 "t x" false false [] ["transient"] 1 none).outcome
      ∧ (run worldC1 "t x" false false [] ["transient"] 0 none).outcome
        = Except.ok none
      ∧ (run worldC1 "t x" false false [] ["transient"] 0 none).attempts
        = [0, 1] := by
  have h := run_retry_on_first_match worldC1 "t x" false [] ["transient"] 0 none
    "t" ["x"] "/bin/t" [] [] "boom transient\n" "transient" (by decide) rfl
    (by omega) rfl (by simp) (by decide) (by decide)
  refine ⟨?_, by decide, by decide⟩
  exact (congrArg RunResult.outcome h).trans (by decide)

/-- Claim C10: retry-signature matching is independent of the exit code:
even when the process exits 0, a matching non-empty stderr line with
`retryCount < maxRetries` still re-invokes the same command with
`retryCount + 1` (the exit code is never consulted on the retry path), and
the outcome is the recursive call's outcome. -/
theorem retry_independent_of_exit_code (w : World) (cmd : String) (ro : Bool)
    (eh : List ErrorHint) (rh : List String) (rc : Nat) (lc : Option String)
    (tok0 : String) (ts : List String) (pth : String)
    (htok : cmdActual w cmd = tok0 :: ts) (hw : w.which tok0 = some pth)
    (hrc : rc < 5)
    (htrig : stderrTriggers (effectiveRetryHints w cmd rh)
      (w.behavior rc).stderr = true)
    (_hret : (w.behavior rc).returncode = 0) :
    (run w cmd ro false eh rh rc lc).outcome
        = (run w cmd ro false (effectiveErrorHints w cmd eh)
            (effectiveRetryHints w cmd rh) (rc + 1) (lcAllAfter w cmd lc)).outcome
      ∧ (∃ tl, (run w cmd ro false eh rh rc lc).attempts
          = rc :: (rc + 1) :: tl) := by
  have hA := attempt_trigger w cmd ro eh rh rc lc tok0 ts pth htok hw hrc htrig
  have hrun := run_retry_eq w cmd ro false eh rh rc lc _ _ _ _ hA
  rw [hrun]
  obtain ⟨tl, htl⟩ := run_attempts_cons w cmd ro false
    (effectiveErrorHints w cmd eh) (effectiveRetryHints w cmd rh) (rc + 1)
    (lcAllAfter w cmd lc)
  refine ⟨rfl, tl, ?_⟩
  show rc :: (run w cmd ro false (effectiveErrorHints w cmd eh)
      (effectiveRetryHints w cmd rh) (rc + 1) (lcAllAfter w cmd lc)).attempts
    = rc :: (rc + 1) :: tl
  rw [htl]

/-- Witness for Claim C10 at a concrete input: attempt 0 exits 0 but emits
a line containing the signature `"transient"`; a second attempt is still
made. -/
theorem retry_independent_of_exit_code_witness :
    (run worldC10 "t x" false false [] ["transient"] 0 none).outcome
        = (run worldC10 "t x" false false [] ["transient"] 1 none).outcome
      ∧ (∃ tl, (run worldC10 "t x" false false [] ["transient"] 0 none).attempts
          = 0 :: 1 :: tl) := by
  have h := retry_independent_of_exit_code worldC10 "t x" false [] ["transient"]
    0 none "t" ["x"] "/bin/t" (by decide) rfl (by omega) (by decide) rfl
  exact ⟨h.1, h.2⟩

end Sam002

namespace Sam002

theorem errLine_not_mem_suggestLoop (line : String) (table : List ErrorHint)
    (x : String) : Event.errLine x ∉ suggestLoop line table := by
  induction table with
  | nil => simp [suggestLoop]
  | cons e rest ih =>
    rcases hb : pyFind line e.pattern with _ | _ <;> simp [suggestLoop, hb, ih]

theorem errLine_blank_not_mem_processStderr (eh : List ErrorHint)
    (rh : List String) (c : Bool) (rc : Nat) (ls : List String) :
    Event.errLine "" ∉ (processStderr eh rh c rc ls).1 := by
  induction ls with
  | nil => simp [processStderr]
  | cons l rest ih =>
    by_cases hl : l = ""
    · subst hl
      show Event.errLine "" ∉ (processStderr eh rh c rc rest).1
      exact ih
    · simp only [processStderr, if_neg hl]
      cases hfind : retryFirst l rh with
      | some hint =>
        cases c with
        | true =>
          simp only [if_pos rfl]
          simp [errLine_not_mem_suggestLoop, Ne.symm hl]
        | false =>
          simp only [if_neg (by simp : ¬ ((false : Bool) = true))]
          simp [errLine_not_mem_suggestLoop, ih, Ne.symm hl]
      | none =>
        simp [errLine_not_mem_suggestLoop, ih, Ne.symm hl]

theorem errLine_not_mem_processStdout (cmd : String) (ro : Bool)
    (ls : List String) (x : String) :
    Event.errLine x ∉ (processStdout cmd ro ls).2 := by
  induction ls with
  | nil => simp [processStdout]
  | cons l rest ih =>
    cases ro with
    | true => simpa [processStdout] using ih
    | false =>
      simp only [processStdout]
      rcases hb : pyStartswith cmd "azdata notebook run" with _ | _
      · simp [hb, ih]
      · cases hm : notebookMatch l with
        | none => simp [hb, hm, ih]
        | some kv => simp [hb, hm, ih]

theorem processStderr_filter_blank (eh : List ErrorHint) (rh : List String)
    (c : Bool) (rc : Nat) (ls : List String) :
    processStderr eh rh c rc (ls.filter (fun l => !(l == "")))
      = processStderr eh rh c rc ls := by
  induction ls with
  | nil => rfl
  | cons l rest ih =>
    by_cases hl : l = ""
    · subst hl
      rw [show ("" :: rest).filter (fun l => !(l == ""))
          = rest.filter (fun l => !(l == "")) from by simp]
      rw [ih]
      rfl
    · rw [show (l :: rest).filter (fun l => !(l == ""))
          = l :: rest.filter (fun l => !(l == "")) from by simp [hl]]
      simp only [processStderr, if_neg hl]
      cases hfind : retryFirst l rh with
      | some hint =>
        cases c with
        | true => simp [hfind]
        | false => simp [hfind, ih]
      | none => simp [hfind, ih]

theorem attempt_filterStderrWorld (w : World) (cmd : String) (ro no : Bool)
    (eh : List ErrorHint) (rh : List String) (rc : Nat) (lc : Option String) :
    attempt (filterStderrWorld w) cmd ro no eh rh rc lc
      = attempt w cmd ro no eh rh rc lc := by
  simp only [attempt, filterStderrWorld, cmdActual, effectiveRetryHints,
    effectiveErrorHints, installHintFor, lcAllAfter]
  rw [processStderr_filter_blank]

theorem attempt_done_no_blank (w : World) (cmd : String) (ro no : Bool)
    (eh : List ErrorHint) (rh : List String) (rc : Nat) (lc : Option String)
    (r : RunResult) (h : attempt w cmd ro no eh rh rc lc = Step.done r) :
    Event.errLine "" ∉ r.events := by
  simp only [attempt] at h
  repeat' split at h
  all_goals first
    | (injection h with h2; subst h2;
       simp [errLine_blank_not_mem_processStderr, errLine_not_mem_processStdout])
    | exact Step.noConfusion h

theorem attempt_retry_no_blank (w : World) (cmd : String) (ro no : Bool)
    (eh : List ErrorHint) (rh : List String) (rc : Nat) (lc : Option String)
    (evs : List Event) (eh2 : List ErrorHint) (rh2 : List String)
    (lc2 : Option String)
    (h : attempt w cmd ro no eh rh rc lc = Step.retry evs eh2 rh2 lc2) :
    Event.errLine "" ∉ evs := by
  simp only [attempt] at h
  repeat' split at h
  all_goals first
    | (injection h with h1 h2 h3 h4; subst h1;
       simp [errLine_blank_not_mem_processStderr, errLine_not_mem_processStdout])
    | exact Step.noConfusion h

theorem runFuel_no_blank_errLine (w : World) (fuel : Nat) :
    ∀ (cmd : String) (ro no : Bool) (eh : List ErrorHint) (rh : List String)
      (rc : Nat) (lc : Option String),
      Event.errLine "" ∉ (runFuel w fuel cmd ro no eh rh rc lc).events := by
  induction fuel with
  | zero =>
    intro cmd ro no eh rh rc lc
    simp [runFuel]
  | succ fuel ih =>
    intro cmd ro no eh rh rc lc
    cases hA : attempt w cmd ro no eh rh rc lc with
    | done r =>
      simp only [runFuel, hA]
      exact attempt_done_no_blank w cmd ro no eh rh rc lc r hA
    | retry evs eh2 rh2 lc2 =>
      simp only [runFuel, hA, List.mem_append]
      push_neg
      exact ⟨attempt_retry_no_blank w cmd ro no eh rh rc lc evs eh2 rh2 lc2 hA,
        ih cmd ro false eh2 rh2 (rc + 1) lc2⟩

theorem runFuel_filterStderrWorld (w : World) (fuel : Nat) :
    ∀ (cmd : String) (ro no : Bool) (eh : List ErrorHint) (rh : List String)
      (rc : Nat) (lc : Option String),
      runFuel (filterStderrWorld w) fuel cmd ro no eh rh rc lc
        = runFuel w fuel cmd ro no eh rh rc lc := by
  induction fuel with
  | zero =>
    intro cmd ro no eh rh rc lc
    rfl
  | succ fuel ih =>
    intro cmd ro no eh rh rc lc
    cases hA : attempt w cmd ro no eh rh rc lc with
    | done r => simp only [runFuel, attempt_filterStderrWorld, hA]
    | retry evs eh2 rh2 lc2 =>
      simp only [runFuel, attempt_filterStderrWorld, hA, ih]

/-- Claim C5: blank stderr lines are invisible: running against the same
world with every empty stderr line removed gives the identical result (so
the classifier is never consulted on them and nothing is displayed for
them), and no `ERR:`-echo of an empty line ever appears in the display
events. -/
theorem run_ignores_blank_stderr (w : World) (cmd : String) (ro no : Bool)
    (eh : List ErrorHint) (rh : List String) (rc : Nat) (lc : Option String) :
    run (filterStderrWorld w) cmd ro no eh rh rc lc = run w cmd ro no eh rh rc lc
      ∧ Event.errLine "" ∉ (run w cmd ro no eh rh rc lc).events := by
  exact ⟨runFuel_filterStderrWorld w (5 - rc + 1) cmd ro no eh rh rc lc,
    runFuel_no_blank_errLine w (5 - rc + 1) cmd ro no eh rh rc lc⟩

end Sam002

namespace Sam002

theorem attempt_empty_tokens (w : World) (cmd : String) (ro no : Bool)
    (eh : List ErrorHint) (rh : List String) (rc : Nat) (lc : Option String)
    (htok : cmdActual w cmd = []) :
    attempt w cmd ro no eh rh rc lc =
      Step.done ⟨Except.error RunError.indexError, [],
        effectiveErrorHints w cmd eh, effectiveRetryHints w cmd rh,
        lcAllAfter w cmd lc, [rc]⟩ := by
  simp only [attempt, htok]

theorem attempt_no_output (w : World) (cmd : String) (ro : Bool)
    (eh : List ErrorHint) (rh : List String) (rc : Nat) (lc : Option String)
    (tok0 : String) (ts : List String) (pth : String)
    (htok : cmdActual w cmd = tok0 :: ts) (hw : w.which tok0 = some pth) :
    attempt w cmd ro true eh rh rc lc =
      (if (w.behavior rc).returncode ≠ 0 then
        Step.done ⟨Except.error (RunError.systemExit cmd (w.behavior rc).returncode),
          [Event.startBanner cmd, Event.spawned rc],
          effectiveErrorHints w cmd eh, effectiveRetryHints w cmd rh,
          lcAllAfter w cmd lc, [rc]⟩
      else
        Step.done ⟨Except.ok (if ro then some "" else none),
          [Event.startBanner cmd, Event.spawned rc] ++ [Event.successBanner],
          effectiveErrorHints w cmd eh, effectiveRetryHints w cmd rh,
          lcAllAfter w cmd lc, [rc]⟩) := by
  simp only [attempt, htok, hw]
  rw [if_pos (by trivial)]

theorem runFuel_error_hints_indep (w : World) (fuel : Nat) :
    ∀ (cmd : String) (ro no : Bool) (eh1 eh2 : List ErrorHint)
      (rh : List String) (rc : Nat) (lc : Option String),
      (runFuel w fuel cmd ro no eh1 rh rc lc).outcome
          = (runFuel w fuel cmd ro no eh2 rh rc lc).outcome
        ∧ (runFuel w fuel cmd ro no eh1 rh rc lc).attempts
          = (runFuel w fuel cmd ro no eh2 rh rc lc).attempts := by
  induction fuel with
  | zero =>
    intro cmd ro no eh1 eh2 rh rc lc
    exact ⟨rfl, rfl⟩
  | succ fuel ih =>
    intro cmd ro no eh1 eh2 rh rc lc
    cases htok : cmdActual w cmd with
    | nil =>
      simp only [runFuel, attempt_empty_tokens w cmd ro no eh1 rh rc lc htok,
        attempt_empty_tokens w cmd ro no eh2 rh rc lc htok]
      constructor <;> trivial
    | cons tok0 ts =>
      cases hw : w.which tok0 with
      | none =>
        simp only [runFuel,
          attempt_not_found w cmd ro no eh1 rh rc lc tok0 ts htok hw,
          attempt_not_found w cmd ro no eh2 rh rc lc tok0 ts htok hw]
        constructor <;> trivial
      | some pth =>
        cases no with
        | true =>
          have h1 := attempt_no_output w cmd ro eh1 rh rc lc tok0 ts pth htok hw
          have h2 := attempt_no_output w cmd ro eh2 rh rc lc tok0 ts pth htok hw
          by_cases hret : (w.behavior rc).returncode ≠ 0
          · rw [if_pos hret] at h1 h2
            simp only [runFuel, h1, h2]
            constructor <;> trivial
          · rw [if_neg hret] at h1 h2
            simp only [runFuel, h1, h2]
            constructor <;> trivial
        | false =>
          by_cases htr : (decide (rc < 5)
              && stderrTriggers (effectiveRetryHints w cmd rh)
                (w.behavior rc).stderr) = true
          · rw [Bool.and_eq_true] at htr
            have hrc : rc < 5 := of_decide_eq_true htr.1
            have htrig := htr.2
            have h1 := attempt_trigger w cmd ro eh1 rh rc lc tok0 ts pth htok hw
              hrc htrig
            have h2 := attempt_trigger w cmd ro eh2 rh rc lc tok0 ts pth htok hw
              hrc htrig
            simp only [runFuel, h1, h2]
            have hr := ih cmd ro false (effectiveErrorHints w cmd eh1)
              (effectiveErrorHints w cmd eh2) (effectiveRetryHints w cmd rh)
              (rc + 1) (lcAllAfter w cmd lc)
            exact ⟨hr.1, by rw [hr.2]⟩
          · have hf : (decide (rc < 5)
                && stderrTriggers (effectiveRetryHints w cmd rh)
                  (w.behavior rc).stderr) = false := by
              cases hb : (decide (rc < 5)
                  && stderrTriggers (effectiveRetryHints w cmd rh)
                    (w.behavior rc).stderr) with
              | false => rfl
              | true => exact absurd hb htr
            have h1 := attempt_no_trigger w cmd ro eh1 rh rc lc tok0 ts pth htok
              hw hf
            have h2 := attempt_no_trigger w cmd ro eh2 rh rc lc tok0 ts pth htok
              hw hf
            by_cases hret : (w.behavior rc).returncode ≠ 0
            · rw [if_pos hret] at h1 h2
              simp only [runFuel, h1, h2]
              constructor <;> trivial
            · rw [if_neg hret] at h1 h2
              simp only [runFuel, h1, h2]
              constructor <;> trivial

/-- Claim C8: the remediation-hint table never changes control flow: for
any two `error_hints` tables, the same request against the same world gives
the same returned value or raised failure, and the same attempt chain —
the table influences only what is displayed. -/
theorem error_hints_noninterference (w : World) (cmd : String) (ro no : Bool)
    (eh1 eh2 : List ErrorHint) (rh : List String) (rc : Nat)
    (lc : Option String) :
    (run w cmd ro no eh1 rh rc lc).outcome
        = (run w cmd ro no eh2 rh rc lc).outcome
      ∧ (run w cmd ro no eh1 rh rc lc).attempts
        = (run w cmd ro no eh2 rh rc lc).attempts :=
  runFuel_error_hints_indep w (5 - rc + 1) cmd ro no eh1 eh2 rh rc lc

end Sam002

namespace Sam002

theorem processStdout_capture (cmd : String) (ls : List String) :
    processStdout cmd true ls = (ls.foldr (fun a b => a ++ b) "", []) := by
  induction ls with
  | nil => rfl
  | cons l rest ih => simp [processStdout, ih]

theorem processStdout_console_plain (cmd : String) (ls : List String)
    (hpre : pyStartswith cmd "azdata notebook run" = false) :
    processStdout cmd false ls = ("", ls.map Event.stdoutLine) := by
  induction ls with
  | nil => rfl
  | cons l rest ih => simp [processStdout, hpre, ih]

theorem processStdout_console_notebook (cmd : String) (ls : List String)
    (hpre : pyStartswith cmd "azdata notebook run" = true) :
    processStdout cmd false ls =
      ("", ls.filterMap fun l => (notebookMatch l).map
        fun kv => Event.displayKV kv.1 kv.2 (!pyFind kv.1 "HTML")) := by
  induction ls with
  | nil => rfl
  | cons l rest ih =>
    cases hm : notebookMatch l with
    | none => simp [processStdout, hpre, hm, ih, List.filterMap_cons]
    | some kv => simp [processStdout, hpre, hm, ih, List.filterMap_cons]

/-- Counterexample to Claim C6 as stated: for an `azdata notebook run`
command without `captureOutput`, a stdout line that does not match the
summary format is neither accumulated nor written to the console — it is
silently dropped (no display event for it at all). -/
theorem stdout_line_dropped_counterexample :
    (run worldC6 "azdata notebook run nb" false false [] [] 0 none).events
        = [Event.startBanner "azdata notebook run nb", Event.spawned 0,
           Event.successBanner]
      ∧ Event.stdoutLine "hello"
          ∉ (run worldC6 "azdata notebook run nb" false false [] [] 0 none).events
      ∧ (∀ k v b, Event.displayKV k v b
          ∉ (run worldC6 "azdata notebook run nb" false false [] [] 0 none).events)
      ∧ (run worldC6 "azdata notebook run nb" false false [] [] 0 none).outcome
        = Except.ok none := by
  have hev : (run worldC6 "azdata notebook run nb" false false [] [] 0 none).events
      = [Event.startBanner "azdata notebook run nb", Event.spawned 0,
         Event.successBanner] := by decide
  refine ⟨hev, by decide, ?_, by decide⟩
  intro k v b hmem
  rw [hev] at hmem
  simp at hmem

/-- Claim C6 (amended): when `captureOutput` is set, every stdout line is
accumulated into the buffer (the concatenation of the lines) and nothing is
displayed — the notebook rewrite never alters the buffer; when it is not
set, commands other than `azdata notebook run` have every line written to
the console as is, while for `azdata notebook run` commands exactly the
lines matching the summary format are displayed, rewritten with the value
hyperlinked unless the key contains `"HTML"`, and non-matching lines are
dropped without display. -/
theorem stdout_processing_characterization (cmd : String) (ls : List String) :
    processStdout cmd true ls = (ls.foldr (fun a b => a ++ b) "", [])
      ∧ (pyStartswith cmd "azdata notebook run" = false →
          processStdout cmd false ls = ("", ls.map Event.stdoutLine))
      ∧ (pyStartswith cmd "azdata notebook run" = true →
          processStdout cmd false ls =
            ("", ls.filterMap fun l => (notebookMatch l).map
              fun kv => Event.displayKV kv.1 kv.2 (!pyFind kv.1 "HTML"))) :=
  ⟨processStdout_capture cmd ls,
   fun h => processStdout_console_plain cmd ls h,
   fun h => processStdout_console_notebook cmd ls h⟩

/-- Witness for the amended Claim C6 at concrete inputs: capture mode
concatenates; console mode prints plain lines for ordinary commands; for
`azdata notebook run`, a non-matching line is dropped, an `HTML` key is
displayed unlinked and another key is displayed linked. -/
theorem stdout_processing_characterization_witness :
    processStdout "azdata notebook run nb" true ["a\n", "b\n"] = ("a\nb\n", [])
      ∧ processStdout "tool x" false ["hello\n"]
        = ("", [Event.stdoutLine "hello\n"])
      ∧ processStdout "azdata notebook run nb" false
          ["hello\n", "  \"HTML\": \"f.html\"\n", "  \"result\": \"r.ipynb\"\n"]
        = ("", [Event.displayKV "HTML" "f.html" false,
                Event.displayKV "result" "r.ipynb" true]) := by
  have h1 := stdout_processing_characterization "azdata notebook run nb"
    ["a\n", "b\n"]
  have h2 := stdout_processing_characterization "tool x" ["hello\n"]
  have h3 := stdout_processing_characterization "azdata notebook run nb"
    ["hello\n", "  \"HTML\": \"f.html\"\n", "  \"result\": \"r.ipynb\"\n"]
  refine ⟨?_, ?_, ?_⟩
  · rw [h1.1]
    decide
  · rw [h2.2.1 (by decide)]
    decide
  · rw [h3.2.2 (by decide)]
    decide

end Sam002

namespace Sam002

/-- Counterexample to Claim C9 as stated: a call of `run` with default
arguments does leave state behind — the default hint-list objects are
extended in place by the family branch (`error_hints += azdata_error_hints`
on the default list object), and an identical later call observes it: the
second call displays different events (each hint suggestion twice) for the
same request, same world, same process behaviour. -/
theorem default_hint_tables_mutated_counterexample :
    ((runTop worldC9 ⟨[], [], none⟩ "azdata x" false false).2.default_error_hints
        ≠ ([] : List ErrorHint))
      ∧ ((runTop worldC9
            ((runTop worldC9 ⟨[], [], none⟩ "azdata x" false false).2)
            "azdata x" false false).1.events
          ≠ (runTop worldC9 ⟨[], [], none⟩ "azdata x" false false).1.events) := by
  constructor
  · decide
  · decide

/-- Claim C9 (amended): each call owns its captured-output buffer and retry
counter — a top-level call makes its own attempt chain starting at 0, here
the single attempt `[0]` — but the hint tables are shared mutable
default-argument objects: an `azdata`-prefixed call returns with the
default tables extended in place by the azdata hint lists, state observable
by any later call that uses the defaults. -/
theorem run_state_threading (w : World) (g : PyGlobals) (cmd : String)
    (ro : Bool)
    (hpy : pyStartswith cmd "python " = false)
    (hku : pyStartswith cmd "kubectl " = false)
    (haz : pyStartswith cmd "azdata " = true) :
    (runTop w g cmd ro true).1.attempts = [0]
      ∧ (runTop w g cmd ro true).2.default_retry_hints
          = g.default_retry_hints ++ azdata_retry_hints
      ∧ (runTop w g cmd ro true).2.default_error_hints
          = g.default_error_hints ++ azdata_error_hints := by
  simp only [runTop]
  cases hA : attempt w cmd ro true g.default_error_hints g.default_retry_hints 0
      g.lc_all with
  | retry evs eh2 rh2 lc2 =>
    have hno := (attempt_retry_inv w cmd ro true g.default_error_hints
      g.default_retry_hints 0 g.lc_all evs eh2 rh2 lc2 hA).2.2.2.2
    exact absurd hno (by simp)
  | done r =>
    have hrun := run_done w cmd ro true g.default_error_hints
      g.default_retry_hints 0 g.lc_all r hA
    rw [hrun]
    have hfin := attempt_done_finals w cmd ro true g.default_error_hints
      g.default_retry_hints 0 g.lc_all r hA
    have hatt := attempt_done_attempts w cmd ro true g.default_error_hints
      g.default_retry_hints 0 g.lc_all r hA
    refine ⟨hatt, ?_, ?_⟩
    · rw [hfin.2.1]
      simp [effectiveRetryHints, hpy, hku, haz]
    · rw [hfin.1]
      simp [effectiveErrorHints, hpy, hku, haz]

/-- Witness for the amended Claim C9 at a concrete input: an `azdata` call
on fresh defaults makes one attempt and leaves the default tables holding
the azdata hint lists. -/
theorem run_state_threading_witness :
    (runTop worldC9 ⟨[], [], none⟩ "azdata x" false true).1.attempts = [0]
      ∧ (runTop worldC9 ⟨[], [], none⟩ "azdata x" false true).2.default_retry_hints
          = azdata_retry_hints
      ∧ (runTop worldC9 ⟨[], [], none⟩ "azdata x" false true).2.default_error_hints
          = azdata_error_hints := by
  have h := run_state_threading worldC9 ⟨[], [], none⟩ "azdata x" false rfl rfl rfl
  refine ⟨h.1, ?_, ?_⟩
  · rw [h.2.1]
    rfl
  · rw [h.2.2]
    rfl

end Sam002
